import Mathlib

/-!
Verification of the headline-goat experiment ingestion and statistics engine.

The definitions below are a shallow embedding of the Go sources:
  * `internal/store/sqlite.go`   — event ledger and experiment registry
                                    (the SQLite tables are modelled as Lean
                                    lists, the UNIQUE indexes as explicit
                                    presence checks);
  * `internal/server/handlers.go` — the beacon ingestion handler;
  * `internal/cli/create.go`, `internal/cli/winner.go` — the administrative
                                    commands;
  * `internal/stats/wilson.go`, `internal/stats/significance.go` — the pure
                                    inference functions (Go float64 arithmetic
                                    is modelled over ℝ).

Fields of the Go structs that no verified operation reads or writes
(timestamps, weights, URL-targeting columns, row ids) are omitted from the
embedding; everything an embedded operation touches is translated faithfully,
including branch order and comparison directions.
-/

namespace HeadlineGoat

/-- TestState mirrors `store.TestState` (`"running"`, `"paused"`, `"completed"`). -/
inductive TestState where
  | running
  | paused
  | completed
deriving DecidableEq

/-- Test mirrors `store.Test` restricted to the fields the verified
operations use: name, decoded variants, conversion goal, state, winner,
source and the sticky conflict flag. -/
structure Test where
  name : String
  variants : List String
  conversionGoal : String
  state : TestState
  winnerVariant : Option Int
  source : String
  hasSourceConflict : Bool
deriving DecidableEq

/-- Event mirrors `store.Event` (ledger row) without row id / timestamp. -/
structure Event where
  testName : String
  variant : Int
  eventType : String
  visitorID : String
deriving DecidableEq

/-- DBState is the SQLite database contents: the `tests` table and the
`events` table, in insertion order. -/
structure DBState where
  tests : List Test
  events : List Event
deriving DecidableEq

/-- DBError models the error values the store returns: the `ErrNotFound`
sentinel and wrapped driver errors, carrying the message string that
`containsUniqueConstraint` inspects. -/
inductive DBError where
  | notFound
  | driver (msg : String)
deriving DecidableEq

/-- message is the Go `err.Error()` string of a store error. -/
def DBError.message : DBError → String
  | .notFound => "not found"
  | .driver m => m

/-- startsWithL decides whether the second list occurs at the head of the
first (helper for the substring check of `strings.Contains`). -/
def startsWithL : List Char → List Char → Bool
  | _, [] => true
  | [], _ :: _ => false
  | c :: cs, d :: ds => (c == d) && startsWithL cs ds

/-- containsSubL decides whether the second list occurs contiguously inside
the first (helper for `strings.Contains`). -/
def containsSubL : List Char → List Char → Bool
  | [], pat => pat.isEmpty
  | c :: cs, pat => startsWithL (c :: cs) pat || containsSubL cs pat

/-- strContains models Go `strings.Contains`. -/
def strContains (s pat : String) : Bool :=
  containsSubL s.toList pat.toList

/-- containsUniqueConstraint mirrors `containsUniqueConstraint` in
`internal/store/sqlite.go`: a substring check for the SQLite uniqueness
violation message. -/
def containsUniqueConstraint (e : DBError) : Bool :=
  strContains e.message "UNIQUE constraint" || strContains e.message "unique constraint"

/-- getTestRow is the `SELECT ... FROM tests WHERE name = ?` row lookup
(first row matching the unique name). -/
def getTestRow (d : DBState) (name : String) : Option Test :=
  d.tests.find? (fun t => t.name == name)

/-- getTest mirrors `SQLiteStore.GetTest`: the row if present, otherwise the
`ErrNotFound` sentinel. -/
def getTest (d : DBState) (name : String) : Except DBError Test :=
  match getTestRow d name with
  | some t => .ok t
  | none => .error .notFound

/-- uniqueViolationMsg is the wrapped driver message produced when the
`tests.name` UNIQUE constraint rejects an insert
(`fmt.Errorf("failed to insert test: %w", err)` around the SQLite error). -/
def uniqueViolationMsg : String :=
  "failed to insert test: constraint failed: UNIQUE constraint failed: tests.name"

/-- createTestWithSource mirrors `SQLiteStore.createTestWithSource`: an
INSERT into `tests` with state `'running'`, which the UNIQUE index on `name`
rejects atomically when the name is already taken. -/
def createTestWithSource (d : DBState) (name : String) (variants : List String)
    (conversionGoal : String) (source : String) : Except DBError (Test × DBState) :=
  if (getTestRow d name).isSome then
    .error (.driver uniqueViolationMsg)
  else
    let t : Test :=
      { name := name, variants := variants, conversionGoal := conversionGoal,
        state := .running, winnerVariant := none, source := source,
        hasSourceConflict := false }
    .ok (t, { d with tests := d.tests ++ [t] })

/-- createTest mirrors `SQLiteStore.CreateTest` (provenance `"server"`). -/
def createTest (d : DBState) (name : String) (variants : List String)
    (conversionGoal : String) : Except DBError (Test × DBState) :=
  createTestWithSource d name variants conversionGoal "server"

/-- getOrCreateTest mirrors `SQLiteStore.GetOrCreateTest`. The three storage
round-trips (optimistic read, insert, fallback re-read) each see their own
snapshot of the database — `d1`, `d2`, `d3` — so that interference from
concurrent writers between the calls is expressible; the sequential case is
`d1 = d2 = d3`. The returned state is the insert target after the call. -/
def getOrCreateTest (d1 d2 d3 : DBState) (name : String) (variants : List String) :
    Except DBError (Test × Bool) × DBState :=
  match getTest d1 name with
  | .ok t => (.ok (t, false), d2)
  | .error e =>
    if e = DBError.notFound then
      match createTestWithSource d2 name variants "" "client" with
      | .ok (t, d2x) => (.ok (t, true), d2x)
      | .error e2 =>
        if containsUniqueConstraint e2 then
          match getTest d3 name with
          | .ok t => (.ok (t, false), d2)
          | .error e3 => (.error e3, d2)
        else (.error e2, d2)
    else (.error e, d2)

/-- setSourceConflict mirrors `SQLiteStore.SetSourceConflict`: an UPDATE of
the flag on the named row, `ErrNotFound` when no row was affected. -/
def setSourceConflict (d : DBState) (name : String) (hasConflict : Bool) :
    Except DBError Unit × DBState :=
  if (getTestRow d name).isSome then
    (.ok (), { d with tests := d.tests.map (fun t =>
        if t.name == name then { t with hasSourceConflict := hasConflict } else t) })
  else (.error .notFound, d)

/-- updateTestState mirrors `SQLiteStore.UpdateTestState`: sets the state
and, when a winner pointer is supplied, the winner column. -/
def updateTestState (d : DBState) (name : String) (state : TestState)
    (winnerVariant : Option Int) : Except DBError Unit × DBState :=
  if (getTestRow d name).isSome then
    (.ok (), { d with tests := d.tests.map (fun t =>
        if t.name == name then
          { t with state := state,
                   winnerVariant := match winnerVariant with
                     | some w => some w
                     | none => t.winnerVariant }
        else t) })
  else (.error .notFound, d)

/-- setWinner mirrors `SQLiteStore.SetWinner`. -/
def setWinner (d : DBState) (name : String) (variantIndex : Int) :
    Except DBError Unit × DBState :=
  updateTestState d name .completed (some variantIndex)

/-- recordEvent mirrors `SQLiteStore.RecordEvent`: `INSERT OR IGNORE` under
the UNIQUE index `idx_events_dedup` on (test_name, visitor_id, event_type) —
the row is appended only when no row with the same key exists. -/
def recordEvent (evs : List Event) (testName : String) (variant : Int)
    (eventType : String) (visitorID : String) : List Event :=
  if evs.any (fun e =>
      e.testName == testName && e.visitorID == visitorID && e.eventType == eventType) then
    evs
  else
    evs ++ [{ testName := testName, variant := variant,
              eventType := eventType, visitorID := visitorID }]

/-- CliError models the error outcomes of the administrative commands in
`internal/cli` (`fmt.Errorf` messages, tagged here by kind). -/
inductive CliError where
  | testNotFound (name : String)
  | invalidState (name : String) (st : TestState)
  | invalidVariant (idx : Int) (name : String)
  | tooFewVariants
  | exclusiveFlags
  | storeFailed (e : DBError)
deriving DecidableEq

/-- winnerCmd mirrors the `RunE` body of `newWinnerCmd` in
`internal/cli/winner.go`: look the test up, require state `running`, require
the variant index in range, then call `SetWinner`. -/
def winnerCmd (d : DBState) (testName : String) (variantIndex : Int) :
    Except CliError Unit × DBState :=
  match getTest d testName with
  | .error _ => (.error (.testNotFound testName), d)
  | .ok t =>
    if t.state ≠ TestState.running then
      (.error (.invalidState testName t.state), d)
    else if variantIndex < 0 ∨ (t.variants.length : Int) ≤ variantIndex then
      (.error (.invalidVariant variantIndex testName), d)
    else
      match setWinner d testName variantIndex with
      | (.ok _, d1) => (.ok (), d1)
      | (.error e, _) => (.error (.storeFailed e), d)

/-- createCmd mirrors the `RunE` body of `newCreateCmd` in
`internal/cli/create.go`: split the `--variants` flag on commas, trim each
piece, reject fewer than two variants and the mutually exclusive CTA flags,
then call `CreateTest`. (The optional URL-field update after creation is
omitted: it does not touch variants or any other verified field.) -/
def createCmd (d : DBState) (testName : String) (variantsFlag : String)
    (ctaTarget : String) (conversionURL : String) : Except CliError Test × DBState :=
  let variantList := (variantsFlag.splitOn ",").map String.trim
  if variantList.length < 2 then
    (.error .tooFewVariants, d)
  else if ctaTarget ≠ "" ∧ conversionURL ≠ "" then
    (.error .exclusiveFlags, d)
  else
    match createTest d testName variantList "" with
    | .ok (t, d1) => (.ok t, d1)
    | .error e => (.error (.storeFailed e), d)

/-- BeaconRequest mirrors `server.BeaconRequest`, the decoded ingestion wire
payload. -/
structure BeaconRequest where
  testName : String
  variant : Int
  eventType : String
  visitorID : String
  source : String
  variants : List String
deriving DecidableEq

/-- HTTPResponse models the ways `handleBeacon` answers a POST request. -/
inductive HTTPResponse where
  | noContent
  | badRequest (msg : String)
  | serverError (msg : String)
deriving DecidableEq

/-- beaconFinish is the tail of `handleBeacon` after the experiment has been
resolved to `t`: the variant range check, the one-directional source-conflict
check, and the ledger write. -/
def beaconFinish (d : DBState) (req : BeaconRequest) (src : String) (t : Test) :
    HTTPResponse × DBState :=
  if req.variant < 0 ∨ (t.variants.length : Int) ≤ req.variant then
    (.badRequest "Invalid variant", d)
  else
    let d1 :=
      if t.source = "server" ∧ src = "client" ∧ t.hasSourceConflict = false then
        (setSourceConflict d t.name true).2
      else d
    (.noContent,
     { d1 with events := recordEvent d1.events req.testName req.variant req.eventType req.visitorID })

/-- handleBeacon mirrors the POST path of `Server.handleBeacon` in
`internal/server/handlers.go`: field validation, defaulting the source to
`"client"`, resolution (auto-create only for client reports that carry
variant labels), then `beaconFinish`. -/
def handleBeacon (d : DBState) (req : BeaconRequest) : HTTPResponse × DBState :=
  if req.testName = "" ∨ req.visitorID = "" then
    (.badRequest "Missing required fields", d)
  else if req.eventType ≠ "view" ∧ req.eventType ≠ "convert" then
    (.badRequest "Invalid event type", d)
  else
    let src := if req.source = "" then "client" else req.source
    if 0 < req.variants.length ∧ src = "client" then
      match getOrCreateTest d d d req.testName req.variants with
      | (.ok (t, _), d1) => beaconFinish d1 req src t
      | (.error _, _) => (.serverError "Failed to get or create test", d)
    else
      match getTest d req.testName with
      | .ok t => beaconFinish d req src t
      | .error _ => (.badRequest "Test not found", d)

/-- setTestState replaces the state column of the named experiment; used to
express that ingestion is insensitive to the experiment's state. -/
def setTestState (d : DBState) (name : String) (s : TestState) : DBState :=
  { d with tests := d.tests.map (fun t => if t.name == name then { t with state := s } else t) }

/-- approximateZScore mirrors `approximateZScore` in
`internal/stats/wilson.go` (Acklam's rational approximation to the inverse
normal CDF), with float64 arithmetic modelled over ℝ. -/
noncomputable def approximateZScore (confidence : ℝ) : ℝ :=
  let p := (1 + confidence) / 2
  let pLow : ℝ := 0.02425
  let pHigh : ℝ := 1 - pLow
  if p < pLow then
    let q := Real.sqrt (-2 * Real.log p)
    (((((-7.784894002430293e-3 * q + -0.3223964580411365) * q + -2.400758277161838) * q +
          -2.549732539343734) * q + 4.374664141464968) * q + 2.938163982698783) /
      ((((7.784695709041462e-3 * q + 0.3224671290700398) * q + 2.445134137142996) * q +
          3.754408661907416) * q + 1)
  else if p ≤ pHigh then
    let q := p - 0.5
    let r := q * q
    (((((-39.69683028665376 * r + 220.9460984245205) * r + -275.9285104469687) * r +
          138.3577518672690) * r + -30.66479806614716) * r + 2.506628277459239) * q /
      (((((-54.47609879822406 * r + 161.5858368580409) * r + -155.6989798598866) * r +
          66.80131188771972) * r + -13.28068155288572) * r + 1)
  else
    let q := Real.sqrt (-2 * Real.log (1 - p))
    (-((((((-7.784894002430293e-3 * q + -0.3223964580411365) * q + -2.400758277161838) * q +
          -2.549732539343734) * q + 4.374664141464968) * q + 2.938163982698783))) /
      ((((7.784695709041462e-3 * q + 0.3224671290700398) * q + 2.445134137142996) * q +
          3.754408661907416) * q + 1)

/-- zScore mirrors `ZScore` in `internal/stats/wilson.go`: a switch of
`confidence >= threshold` cases over the five precomputed table values,
falling through to the rational approximation. -/
noncomputable def zScore (confidence : ℝ) : ℝ :=
  if 0.99 ≤ confidence then 2.576
  else if 0.95 ≤ confidence then 1.96
  else if 0.90 ≤ confidence then 1.645
  else if 0.85 ≤ confidence then 1.44
  else if 0.80 ≤ confidence then 1.28
  else approximateZScore confidence

/-- wilsonInterval mirrors `WilsonInterval` in `internal/stats/wilson.go`,
including the final one-sided clamps of each bound. -/
noncomputable def wilsonInterval (successes trials : Int) (confidence : ℝ) : ℝ × ℝ :=
  if trials = 0 then (0, 0)
  else
    let z := zScore confidence
    let p := (successes : ℝ) / (trials : ℝ)
    let n : ℝ := (trials : ℝ)
    let denominator := 1 + z * z / n
    let center := (p + z * z / (2 * n)) / denominator
    let spread := (z / denominator) * Real.sqrt (p * (1 - p) / n + z * z / (4 * n * n))
    let lower := center - spread
    let upper := center + spread
    let lower := if lower < 0 then 0 else lower
    let upper := if 1 < upper then 1 else upper
    (lower, upper)

/-- normalCDF mirrors `normalCDF` in `internal/stats/significance.go`: the
Abramowitz–Stegun 7.1.26 approximation of the standard normal CDF. -/
noncomputable def normalCDF (x : ℝ) : ℝ :=
  let a1 : ℝ := 0.254829592
  let a2 : ℝ := -0.284496736
  let a3 : ℝ := 1.421413741
  let a4 : ℝ := -1.453152027
  let a5 : ℝ := 1.061405429
  let p : ℝ := 0.3275911
  let sgn : ℝ := if x < 0 then -1 else 1
  let x1 := |x| / Real.sqrt 2
  let t := 1 / (1 + p * x1)
  let y := 1 - (((((a5 * t + a4) * t) + a3) * t + a2) * t + a1) * t * Real.exp (-(x1 * x1))
  0.5 * (1 + sgn * y)

/-- significanceTest mirrors `SignificanceTest` in
`internal/stats/significance.go`: a two-proportion z-test returning the
confidence that A's rate exceeds B's. -/
noncomputable def significanceTest (aConv aViews bConv bViews : Int) : ℝ :=
  if aViews = 0 ∧ bViews = 0 then 0.5
  else if aViews = 0 ∨ bViews = 0 then 0.5
  else
    let pA := (aConv : ℝ) / (aViews : ℝ)
    let pB := (bConv : ℝ) / (bViews : ℝ)
    let pooledP := ((aConv : ℝ) + (bConv : ℝ)) / ((aViews : ℝ) + (bViews : ℝ))
    let se := Real.sqrt (pooledP * (1 - pooledP) * (1 / (aViews : ℝ) + 1 / (bViews : ℝ)))
    if se = 0 then
      if pB < pA then 1.0
      else if pA < pB then 0.0
      else 0.5
    else
      let z := (pA - pB) / se
      normalCDF z

/-- VariantStats mirrors `store.VariantStats` (per-variant distinct-visitor
counts produced by `GetVariantStats`). -/
structure VariantStats where
  variant : Int
  views : Int
  conversions : Int
deriving DecidableEq

/-- statsFor models the `statsMap[i]` lookup in `Analyze`: the Go map is
built by one pass over the stats slice (later entries overwrite earlier
ones), and a missing key yields the zero value. -/
def statsFor (stats : List VariantStats) (i : Int) : VariantStats :=
  (stats.reverse.find? (fun s => s.variant == i)).getD ⟨0, 0, 0⟩

/-- variantRate is the per-variant rate computed inside `Analyze`:
conversions over views when views are positive, otherwise 0. -/
noncomputable def variantRate (stats : List VariantStats) (i : Int) : ℝ :=
  let st := statsFor stats i
  if 0 < st.views then (st.conversions : ℝ) / (st.views : ℝ) else 0

/-- leadLoop is the scan `Analyze` uses twice: starting from a running
maximum and current best index, replace them whenever a strictly larger
rate appears (`rate > maxRate`). Arguments: remaining rates, running
maximum, current best index, index of the next rate. -/
noncomputable def leadLoop : List ℝ → ℝ → ℕ → ℕ → ℕ
  | [], _, lead, _ => lead
  | r :: rest, maxR, lead, i =>
    if maxR < r then leadLoop rest r i (i + 1) else leadLoop rest maxR lead (i + 1)

/-- VariantResult mirrors `stats.VariantResult`. -/
structure VariantResult where
  index : ℕ
  name : String
  views : Int
  conversions : Int
  rate : ℝ
  ciLower : ℝ
  ciUpper : ℝ
deriving Inhabited

/-- AnalyzeResult mirrors `stats.Result`. -/
structure AnalyzeResult where
  variants : List VariantResult
  confident : Prop
  confidenceLevel : ℝ
  leadingVariant : ℕ

/-- analyze mirrors `Analyze` in `internal/stats/significance.go`: build a
result per variant (zero-valued stats for unseen variants, 95% Wilson
interval), track the leading variant with a strict-improvement scan seeded
at rate 0 and index 0, then compare leader and control (or the control and
its best challenger) with the two-proportion z-test. -/
noncomputable def analyze (test : Test) (variantStats : List VariantStats) : AnalyzeResult :=
  let variants : List VariantResult :=
    (List.range test.variants.length).map (fun (i : ℕ) =>
      let st := statsFor variantStats (i : Int)
      let rate := if 0 < st.views then (st.conversions : ℝ) / (st.views : ℝ) else 0
      let ci := wilsonInterval st.conversions st.views 0.95
      { index := i, name := test.variants.getD i "", views := st.views,
        conversions := st.conversions, rate := rate, ciLower := ci.1, ciUpper := ci.2 })
  let rates := variants.map (fun v => v.rate)
  let leadingVariant := leadLoop rates 0 0 0
  let confidenceLevel :=
    if 2 ≤ variants.length then
      if leadingVariant = 0 then
        let bestChallenger := leadLoop (rates.drop 1) 0 1 1
        significanceTest ((variants.getD 0 default).conversions) ((variants.getD 0 default).views)
          ((variants.getD bestChallenger default).conversions)
          ((variants.getD bestChallenger default).views)
      else
        significanceTest ((variants.getD leadingVariant default).conversions)
          ((variants.getD leadingVariant default).views)
          ((variants.getD 0 default).conversions) ((variants.getD 0 default).views)
    else 0
  { variants := variants, confident := 0.95 ≤ confidenceLevel,
    confidenceLevel := confidenceLevel, leadingVariant := leadingVariant }

/-! ### Lemmas about the event ledger -/

/-- recordEvent is the identity once a row with the same dedup key exists. -/
lemma recordEvent_of_key_present (evs : List Event) (name : String) (w : Int)
    (kind vid : String)
    (h : evs.any (fun e =>
      e.testName == name && e.visitorID == vid && e.eventType == kind) = true) :
    recordEvent evs name w kind vid = evs := by
  simp only [recordEvent, h, if_pos]

/-- foldl_recordEvent_const: repeated recordEvent calls with the same key
are no-ops once the key is present. -/
lemma foldl_recordEvent_const (name kind vid : String) :
    ∀ (rest : List Int) (acc : List Event),
      acc.any (fun e =>
        e.testName == name && e.visitorID == vid && e.eventType == kind) = true →
      rest.foldl (fun acc w => recordEvent acc name w kind vid) acc = acc := by
  intro rest
  induction rest with
  | nil => intro acc _; rfl
  | cons w ws ih =>
    intro acc hacc
    simp only [List.foldl_cons, recordEvent_of_key_present _ _ _ _ _ hacc]
    exact ih acc hacc

/-- C1: calling recordEvent N ≥ 1 times with a fixed (experiment, visitor,
kind) tuple — starting from a ledger with no event for that tuple — stores
exactly one event for the tuple, carrying the variant index of the first
call; every call after the first returns successfully and leaves the ledger
unchanged, even with a different variant index. -/
theorem recordEvent_dedup_idempotent (evs : List Event) (name vid kind : String)
    (v : Int) (rest : List Int)
    (hfresh : ∀ e ∈ evs, ¬(e.testName = name ∧ e.visitorID = vid ∧ e.eventType = kind)) :
    (v :: rest).foldl (fun acc w => recordEvent acc name w kind vid) evs
      = recordEvent evs name v kind vid
    ∧ ((v :: rest).foldl (fun acc w => recordEvent acc name w kind vid) evs).filter
        (fun e => e.testName == name && e.visitorID == vid && e.eventType == kind)
      = [{ testName := name, variant := v, eventType := kind, visitorID := vid }] := by
  have hany : evs.any (fun e =>
      e.testName == name && e.visitorID == vid && e.eventType == kind) = false := by
    rw [List.any_eq_false]
    intro e he
    have h := hfresh e he
    simp only [Bool.and_eq_true, beq_iff_eq]
    exact fun hc => h ⟨hc.1.1, hc.1.2, hc.2⟩
  have hfirst : recordEvent evs name v kind vid
      = evs ++ [{ testName := name, variant := v, eventType := kind, visitorID := vid }] := by
    simp only [recordEvent, hany, Bool.false_eq_true, if_false]
  have hpresent : (recordEvent evs name v kind vid).any (fun e =>
      e.testName == name && e.visitorID == vid && e.eventType == kind) = true := by
    rw [hfirst, List.any_append]
    simp
  have hfold : (v :: rest).foldl (fun acc w => recordEvent acc name w kind vid) evs
      = recordEvent evs name v kind vid := by
    rw [List.foldl_cons]
    exact foldl_recordEvent_const name kind vid rest _ hpresent
  refine ⟨hfold, ?_⟩
  rw [hfold, hfirst, List.filter_append]
  have hnil : evs.filter (fun e =>
      e.testName == name && e.visitorID == vid && e.eventType == kind) = [] := by
    rw [List.filter_eq_nil_iff]
    intro e he
    have h := hfresh e he
    simp only [Bool.and_eq_true, beq_iff_eq]
    exact fun hc => h ⟨hc.1.1, hc.1.2, hc.2⟩
  rw [hnil]
  simp

/-- C1 witness: a concrete run — three calls for tuple
("hero","v1","view"), with variant indices 0, 1, 0 — keeps exactly the
first call's event. -/
theorem recordEvent_dedup_idempotent_witness :
    (∀ e ∈ ([] : List Event),
        ¬(e.testName = "hero" ∧ e.visitorID = "v1" ∧ e.eventType = "view"))
    ∧ (((0 : Int) :: [1, 0]).foldl
          (fun acc w => recordEvent acc "hero" w "view" "v1") []
        = recordEvent [] "hero" 0 "view" "v1"
      ∧ (((0 : Int) :: [1, 0]).foldl
            (fun acc w => recordEvent acc "hero" w "view" "v1") []).filter
          (fun e => e.testName == "hero" && e.visitorID == "v1" && e.eventType == "view")
        = [{ testName := "hero", variant := 0, eventType := "view", visitorID := "v1" }]) :=
  ⟨by simp, recordEvent_dedup_idempotent [] "hero" "v1" "view" 0 [1, 0] (by simp)⟩

/-! ### Lemmas about the experiment registry -/

/-- getTest can only fail with the `ErrNotFound` sentinel. -/
lemma getTest_error_eq (d : DBState) (name : String) (e : DBError)
    (h : getTest d name = .error e) : e = .notFound := by
  unfold getTest at h
  cases hrow : getTestRow d name with
  | some t => rw [hrow] at h; exact absurd h (by simp)
  | none => rw [hrow] at h; cases h; rfl

/-- createTestWithSource can only fail with the wrapped uniqueness
violation. -/
lemma createTestWithSource_error_eq (d : DBState) (name : String)
    (variants : List String) (goal src : String) (e : DBError)
    (h : createTestWithSource d name variants goal src = .error e) :
    e = .driver uniqueViolationMsg := by
  unfold createTestWithSource at h
  by_cases hrow : (getTestRow d name).isSome
  · rw [if_pos hrow] at h; cases h; rfl
  · rw [if_neg hrow] at h; exact absurd h (by simp)

/-- containsUniqueConstraint recognises the message of a rejected insert. -/
lemma containsUnique_insert_msg :
    containsUniqueConstraint (.driver uniqueViolationMsg) = true := by decide

/-- containsUniqueConstraint rejects the `ErrNotFound` message. -/
lemma containsUnique_notFound :
    containsUniqueConstraint .notFound = false := by decide

/-- C8: when the optimistic insert inside getOrCreate fails with a
uniqueness violation (the name appeared between its read and its insert),
getOrCreate re-reads and returns the existing experiment with
wasCreated = false; and no uniqueness error is ever propagated to the
caller. `d1`, `d2`, `d3` are the database snapshots seen by the optimistic
read, the insert and the fallback re-read. -/
theorem getOrCreateTest_race_safe :
    (∀ (d1 d2 d3 : DBState) (name : String) (variants : List String) (t : Test) (e : DBError),
        getTest d1 name = .error .notFound →
        createTestWithSource d2 name variants "" "client" = .error e →
        containsUniqueConstraint e = true →
        getTest d3 name = .ok t →
        (getOrCreateTest d1 d2 d3 name variants).1 = .ok (t, false))
    ∧ (∀ (d1 d2 d3 : DBState) (name : String) (variants : List String) (e : DBError),
        (getOrCreateTest d1 d2 d3 name variants).1 = .error e →
        containsUniqueConstraint e = false) := by
  constructor
  · intro d1 d2 d3 name variants t e h1 h2 h3 h4
    simp only [getOrCreateTest, h1, h2, h3, h4, if_true, if_pos rfl]
  · intro d1 d2 d3 name variants e h
    unfold getOrCreateTest at h
    cases hg1 : getTest d1 name with
    | ok t => rw [hg1] at h; exact absurd h (by simp)
    | error e1 =>
      have he1 := getTest_error_eq d1 name e1 hg1
      subst he1
      rw [hg1] at h
      simp only [if_pos rfl] at h
      cases hc : createTestWithSource d2 name variants "" "client" with
      | ok td =>
        rw [hc] at h
        exact absurd h (by simp)
      | error e2 =>
        have he2 := createTestWithSource_error_eq d2 name variants "" "client" e2 hc
        subst he2
        rw [hc] at h
        simp only [containsUnique_insert_msg, if_true] at h
        cases hg3 : getTest d3 name with
        | ok t => rw [hg3] at h; exact absurd h (by simp)
        | error e3 =>
          have he3 := getTest_error_eq d3 name e3 hg3
          rw [hg3] at h
          cases h
          rw [he3]
          exact containsUnique_notFound

/-- sampleTest: a two-variant running experiment used by concrete
witnesses. -/
def sampleTest : Test :=
  { name := "hero", variants := ["A", "B"], conversionGoal := "",
    state := .running, winnerVariant := none, source := "server",
    hasSourceConflict := false }

/-- sampleDB: a database holding only `sampleTest`. -/
def sampleDB : DBState := { tests := [sampleTest], events := [] }

/-- C8 witness: the loser of a concrete create/create race gets the
winner's experiment back with wasCreated = false. -/
theorem getOrCreateTest_race_safe_witness :
    (getTest { tests := [], events := [] } "hero" = .error .notFound
      ∧ createTestWithSource sampleDB "hero" ["A", "B"] "" "client"
          = .error (.driver uniqueViolationMsg)
      ∧ containsUniqueConstraint (.driver uniqueViolationMsg) = true
      ∧ getTest sampleDB "hero" = .ok sampleTest)
    ∧ (getOrCreateTest { tests := [], events := [] } sampleDB sampleDB "hero" ["A", "B"]).1
        = .ok (sampleTest, false) :=
  ⟨⟨rfl, rfl, rfl, rfl⟩,
    getOrCreateTest_race_safe.1 { tests := [], events := [] } sampleDB sampleDB "hero"
      ["A", "B"] sampleTest (.driver uniqueViolationMsg) rfl rfl rfl rfl⟩

/-- find?_name_map: updating all rows of a given name in place commutes
with the lookup of that name, provided the update preserves the name. -/
lemma find?_name_map (l : List Test) (name : String) (f : Test → Test)
    (hf : ∀ t, (f t).name = t.name) :
    (l.map (fun t => if t.name == name then f t else t)).find? (fun t => t.name == name)
      = (l.find? (fun t => t.name == name)).map f := by
  induction l with
  | nil => rfl
  | cons t ts ih =>
    cases h : (t.name == name) with
    | true =>
      have hpf : ((f t).name == name) = true := by rw [hf]; exact h
      simp only [List.map_cons, h, hpf, eq_self_iff_true, if_true, List.find?_cons]
      rfl
    | false =>
      simp only [List.map_cons, h, Bool.false_eq_true, if_false, List.find?_cons]
      exact ih

/-- getTestRow after updateTestState returns the updated row. -/
lemma getTestRow_updateTestState (d : DBState) (name : String) (state : TestState)
    (w : Int) (hrow : (getTestRow d name).isSome) :
    getTestRow (updateTestState d name state (some w)).2 name
      = (getTestRow d name).map
          (fun t => { t with state := state, winnerVariant := some w }) := by
  unfold updateTestState
  rw [if_pos hrow]
  exact find?_name_map d.tests name _ (fun t => rfl)

/-- C5: the winner-declaration operation (the `winner` command over the
store's SetWinner) fails with the invalid-state error when the experiment is
not running, and with the invalid-variant error when the experiment is
running but the index is outside [0, variantCount) — leaving the store
unchanged in both cases; when the experiment is running and the index is in
range it sets the state to completed and records the index as winner. -/
theorem winnerCmd_spec (d : DBState) (name : String) (idx : Int) (t : Test)
    (h : getTestRow d name = some t) :
    (t.state ≠ TestState.running →
        winnerCmd d name idx = (.error (.invalidState name t.state), d))
    ∧ (t.state = TestState.running → (idx < 0 ∨ (t.variants.length : Int) ≤ idx) →
        winnerCmd d name idx = (.error (.invalidVariant idx name), d))
    ∧ (t.state = TestState.running → 0 ≤ idx → idx < (t.variants.length : Int) →
        (winnerCmd d name idx).1 = .ok ()
        ∧ getTestRow (winnerCmd d name idx).2 name
            = some { t with state := TestState.completed, winnerVariant := some idx }) := by
  have hget : getTest d name = .ok t := by unfold getTest; rw [h]
  have hsome : (getTestRow d name).isSome := by rw [h]; rfl
  refine ⟨?_, ?_, ?_⟩
  · intro hst
    unfold winnerCmd
    rw [hget]
    simp only [if_pos hst]
  · intro hst hidx
    unfold winnerCmd
    rw [hget]
    simp only [hst, ne_eq, not_true_eq_false, if_false, if_pos hidx]
  · intro hst h0 hlt
    have hnotidx : ¬(idx < 0 ∨ (t.variants.length : Int) ≤ idx) := by
      push_neg
      exact ⟨h0, hlt⟩
    have hsw : setWinner d name idx
        = (.ok (), { d with tests := d.tests.map (fun t2 =>
            if t2.name == name then
              { t2 with state := TestState.completed, winnerVariant := some idx }
            else t2) }) := by
      unfold setWinner updateTestState
      rw [if_pos hsome]
    unfold winnerCmd
    rw [hget]
    simp only [hst, ne_eq, not_true_eq_false, if_false, if_neg hnotidx, hsw]
    refine ⟨trivial, ?_⟩
    unfold getTestRow
    rw [find?_name_map d.tests name
      (fun t2 => { t2 with state := TestState.completed, winnerVariant := some idx })
      (fun _ => rfl)]
    have h2 : List.find? (fun t2 => t2.name == name) d.tests = some t := h
    rw [h2]
    rfl

/-- C5 witness: declaring variant 1 the winner of the concrete running
experiment `sampleTest` completes it and records the winner; the error
branches are available at the same input. -/
theorem winnerCmd_spec_witness :
    (getTestRow sampleDB "hero" = some sampleTest)
    ∧ ((sampleTest.state ≠ TestState.running →
          winnerCmd sampleDB "hero" 1 = (.error (.invalidState "hero" sampleTest.state), sampleDB))
      ∧ (sampleTest.state = TestState.running →
            ((1 : Int) < 0 ∨ (sampleTest.variants.length : Int) ≤ 1) →
          winnerCmd sampleDB "hero" 1 = (.error (.invalidVariant 1 "hero"), sampleDB))
      ∧ (sampleTest.state = TestState.running → (0 : Int) ≤ 1 →
            (1 : Int) < (sampleTest.variants.length : Int) →
          (winnerCmd sampleDB "hero" 1).1 = .ok ()
          ∧ getTestRow (winnerCmd sampleDB "hero" 1).2 "hero"
              = some { sampleTest with state := TestState.completed,
                                       winnerVariant := some 1 })) :=
  ⟨rfl, winnerCmd_spec sampleDB "hero" 1 sampleTest rfl⟩

/-! ### Lemmas about the ingestion handler -/

/-- getTestRow is empty when getTest reports an error. -/
lemma getTestRow_eq_none_of_getTest_error (d : DBState) (n : String) (e : DBError)
    (h : getTest d n = .error e) : getTestRow d n = none := by
  unfold getTest at h
  cases hrow : getTestRow d n with
  | some t => rw [hrow] at h; exact absurd h (by simp)
  | none => rfl

/-- setSourceConflict never touches the events table. -/
lemma setSourceConflict_events (b : DBState) (n : String) (v : Bool) :
    (setSourceConflict b n v).2.events = b.events := by
  unfold setSourceConflict
  by_cases h : (getTestRow b n).isSome
  · rw [if_pos h]
  · rw [if_neg h]

/-- handleBeacon, on a validated request whose experiment already exists,
reduces to beaconFinish on the stored experiment — on both resolution
paths. -/
lemma handleBeacon_resolves (d : DBState) (req : BeaconRequest) (t : Test)
    (h1 : ¬(req.testName = "" ∨ req.visitorID = ""))
    (h2 : ¬(req.eventType ≠ "view" ∧ req.eventType ≠ "convert"))
    (h3 : getTestRow d req.testName = some t) :
    handleBeacon d req
      = beaconFinish d req (if req.source = "" then "client" else req.source) t := by
  have hget : getTest d req.testName = .ok t := by unfold getTest; rw [h3]
  unfold handleBeacon
  rw [if_neg h1, if_neg h2]
  by_cases hg : 0 < req.variants.length
      ∧ (if req.source = "" then "client" else req.source) = "client"
  · have hgo : getOrCreateTest d d d req.testName req.variants = (.ok (t, false), d) := by
      unfold getOrCreateTest
      rw [hget]
    simp only [if_pos hg, hgo]
  · simp only [if_neg hg, hget]

/-- beaconFinish with an in-range variant always answers 204 and appends
the event via recordEvent, whatever the conflict check does. -/
lemma beaconFinish_ok (b : DBState) (req : BeaconRequest) (src : String) (t : Test)
    (h4 : ¬(req.variant < 0 ∨ (t.variants.length : Int) ≤ req.variant)) :
    (beaconFinish b req src t).1 = .noContent
    ∧ (beaconFinish b req src t).2.events
        = recordEvent b.events req.testName req.variant req.eventType req.visitorID := by
  unfold beaconFinish
  rw [if_neg h4]
  by_cases hc : t.source = "server" ∧ src = "client" ∧ t.hasSourceConflict = false
  · simp only [if_pos hc]
    exact ⟨trivial, by rw [setSourceConflict_events]⟩
  · simp only [if_neg hc]
    exact ⟨trivial, trivial⟩

/-- beaconFinish only ever rewrites rows in place (flag updates); every
surviving row keeps the variant list of a row of the input state. -/
lemma beaconFinish_tests_variants (b : DBState) (req : BeaconRequest) (src : String)
    (t : Test) :
    ∀ t2 ∈ (beaconFinish b req src t).2.tests, ∃ t0 ∈ b.tests, t2.variants = t0.variants := by
  unfold beaconFinish
  by_cases h4 : req.variant < 0 ∨ (t.variants.length : Int) ≤ req.variant
  · rw [if_pos h4]
    intro t2 ht2
    exact ⟨t2, ht2, rfl⟩
  · rw [if_neg h4]
    by_cases hc : t.source = "server" ∧ src = "client" ∧ t.hasSourceConflict = false
    · simp only [if_pos hc]
      unfold setSourceConflict
      by_cases hrow : (getTestRow b t.name).isSome
      · rw [if_pos hrow]
        intro t2 ht2
        simp only [List.mem_map] at ht2
        obtain ⟨t0, ht0, heq⟩ := ht2
        refine ⟨t0, ht0, ?_⟩
        rw [← heq]
        by_cases hn : (t0.name == t.name) = true
        · rw [if_pos hn]
        · rw [if_neg hn]
      · rw [if_neg hrow]
        intro t2 ht2
        exact ⟨t2, ht2, rfl⟩
    · simp only [if_neg hc]
      intro t2 ht2
      exact ⟨t2, ht2, rfl⟩

/-- handleBeacon can only store rows that keep a pre-existing variant list
or carry exactly the request's variant-label list (auto-create). -/
lemma handleBeacon_tests_cases (d : DBState) (req : BeaconRequest) :
    ∀ t2 ∈ (handleBeacon d req).2.tests,
      (∃ t0 ∈ d.tests, t2.variants = t0.variants)
      ∨ (t2.variants = req.variants ∧ 0 < req.variants.length) := by
  unfold handleBeacon
  by_cases h1 : req.testName = "" ∨ req.visitorID = ""
  · rw [if_pos h1]
    intro t2 ht2
    exact .inl ⟨t2, ht2, rfl⟩
  · rw [if_neg h1]
    by_cases h2 : req.eventType ≠ "view" ∧ req.eventType ≠ "convert"
    · rw [if_pos h2]
      intro t2 ht2
      exact .inl ⟨t2, ht2, rfl⟩
    · rw [if_neg h2]
      by_cases hg : 0 < req.variants.length
          ∧ (if req.source = "" then "client" else req.source) = "client"
      · simp only [if_pos hg]
        cases hget : getTest d req.testName with
        | ok t =>
          have hgo : getOrCreateTest d d d req.testName req.variants = (.ok (t, false), d) := by
            unfold getOrCreateTest
            rw [hget]
          rw [hgo]
          intro t2 ht2
          exact .inl (beaconFinish_tests_variants d req _ t t2 ht2)
        | error e =>
          have he := getTest_error_eq d req.testName e hget
          subst he
          have hrow := getTestRow_eq_none_of_getTest_error d req.testName _ hget
          have hcreate : createTestWithSource d req.testName req.variants "" "client"
              = .ok ({ name := req.testName, variants := req.variants, conversionGoal := "",
                       state := .running, winnerVariant := none, source := "client",
                       hasSourceConflict := false },
                     { d with tests := d.tests ++
                        [{ name := req.testName, variants := req.variants, conversionGoal := "",
                           state := .running, winnerVariant := none, source := "client",
                           hasSourceConflict := false }] }) := by
            unfold createTestWithSource
            rw [hrow]
            rfl
          have hgo : getOrCreateTest d d d req.testName req.variants
              = (.ok ({ name := req.testName, variants := req.variants, conversionGoal := "",
                        state := .running, winnerVariant := none, source := "client",
                        hasSourceConflict := false }, true),
                 { d with tests := d.tests ++
                    [{ name := req.testName, variants := req.variants, conversionGoal := "",
                       state := .running, winnerVariant := none, source := "client",
                       hasSourceConflict := false }] }) := by
            unfold getOrCreateTest
            rw [hget]
            simp only [if_pos rfl, eq_self_iff_true, if_true, hcreate]
          rw [hgo]
          intro t2 ht2
          have hmem := beaconFinish_tests_variants _ req _ _ t2 ht2
          obtain ⟨t0, ht0, heq⟩ := hmem
          rw [List.mem_append] at ht0
          cases ht0 with
          | inl hin => exact .inl ⟨t0, hin, heq⟩
          | inr hnew =>
            rw [List.mem_singleton] at hnew
            subst hnew
            exact .inr ⟨heq, hg.1⟩
      · simp only [if_neg hg]
        cases hget : getTest d req.testName with
        | ok t =>
          intro t2 ht2
          exact .inl (beaconFinish_tests_variants d req _ t t2 ht2)
        | error e =>
          intro t2 ht2
          exact .inl ⟨t2, ht2, rfl⟩

/-- C10: ingestion never checks the resolved experiment's state — for every
state (running, paused or completed alike) a validated report is answered
204 and written to the event ledger by exactly the same recordEvent call. -/
theorem beacon_ignores_experiment_state (d : DBState) (req : BeaconRequest) (t : Test)
    (h1 : ¬(req.testName = "" ∨ req.visitorID = ""))
    (h2 : ¬(req.eventType ≠ "view" ∧ req.eventType ≠ "convert"))
    (h3 : getTestRow d req.testName = some t)
    (h4 : ¬(req.variant < 0 ∨ (t.variants.length : Int) ≤ req.variant)) :
    ∀ s : TestState,
      (handleBeacon (setTestState d req.testName s) req).1 = .noContent
      ∧ (handleBeacon (setTestState d req.testName s) req).2.events
          = recordEvent d.events req.testName req.variant req.eventType req.visitorID := by
  intro s
  have hrow : getTestRow (setTestState d req.testName s) req.testName
      = some { t with state := s } := by
    show (d.tests.map (fun t2 =>
        if t2.name == req.testName then { t2 with state := s } else t2)).find?
          (fun t2 => t2.name == req.testName) = _
    rw [find?_name_map d.tests req.testName (fun t2 => { t2 with state := s }) (fun _ => rfl)]
    have h3x : List.find? (fun t2 => t2.name == req.testName) d.tests = some t := h3
    rw [h3x]
    rfl
  rw [handleBeacon_resolves (setTestState d req.testName s) req { t with state := s } h1 h2 hrow]
  have hfin := beaconFinish_ok (setTestState d req.testName s) req
    (if req.source = "" then "client" else req.source) { t with state := s } h4
  refine ⟨hfin.1, ?_⟩
  rw [hfin.2]
  rfl

/-- C10 witness: a concrete validated view report against the (completed)
concrete experiment is still answered 204 and recorded. -/
theorem beacon_ignores_experiment_state_witness :
    (¬(("hero" : String) = "" ∨ ("v1" : String) = "")
      ∧ ¬(("view" : String) ≠ "view" ∧ ("view" : String) ≠ "convert")
      ∧ getTestRow sampleDB "hero" = some sampleTest
      ∧ ¬((0 : Int) < 0 ∨ (sampleTest.variants.length : Int) ≤ 0))
    ∧ ((handleBeacon (setTestState sampleDB "hero" .completed)
          { testName := "hero", variant := 0, eventType := "view", visitorID := "v1",
            source := "", variants := [] }).1 = .noContent
      ∧ (handleBeacon (setTestState sampleDB "hero" .completed)
          { testName := "hero", variant := 0, eventType := "view", visitorID := "v1",
            source := "", variants := [] }).2.events
          = recordEvent sampleDB.events "hero" 0 "view" "v1") :=
  ⟨⟨by decide, by decide, rfl, by decide⟩,
    beacon_ignores_experiment_state sampleDB
      { testName := "hero", variant := 0, eventType := "view", visitorID := "v1",
        source := "", variants := [] } sampleTest
      (by decide) (by decide) rfl (by decide) .completed⟩

/-- C3 (amended): ingestion records a provenance conflict only in one
direction — a client report against a server-provenance experiment with the
flag unset sets the flag; in every other provenance combination (including a
server report against a client-provenance experiment) the tests table is
left completely unchanged. -/
theorem beacon_conflict_one_directional (d : DBState) (req : BeaconRequest) (t : Test)
    (h1 : ¬(req.testName = "" ∨ req.visitorID = ""))
    (h2 : ¬(req.eventType ≠ "view" ∧ req.eventType ≠ "convert"))
    (h3 : getTestRow d req.testName = some t)
    (h4 : ¬(req.variant < 0 ∨ (t.variants.length : Int) ≤ req.variant)) :
    (t.source = "server" → (if req.source = "" then "client" else req.source) = "client" →
        t.hasSourceConflict = false →
        (getTestRow (handleBeacon d req).2 req.testName).map Test.hasSourceConflict
          = some true)
    ∧ (¬(t.source = "server" ∧ (if req.source = "" then "client" else req.source) = "client") →
        (handleBeacon d req).2.tests = d.tests) := by
  have hname : t.name = req.testName := by
    have := List.find?_some h3
    simpa using this
  rw [handleBeacon_resolves d req t h1 h2 h3]
  constructor
  · intro hsrv hcli hflag
    have hc : t.source = "server"
        ∧ (if req.source = "" then "client" else req.source) = "client"
        ∧ t.hasSourceConflict = false := ⟨hsrv, hcli, hflag⟩
    have hrowt : (getTestRow d t.name).isSome := by rw [hname, h3]; rfl
    have hscs : (setSourceConflict d t.name true).2
        = { d with tests := d.tests.map (fun t2 =>
            if t2.name == t.name then { t2 with hasSourceConflict := true } else t2) } := by
      unfold setSourceConflict
      rw [if_pos hrowt]
    unfold beaconFinish
    rw [if_neg h4]
    simp only [if_pos hc, hscs]
    show ((d.tests.map (fun t2 =>
        if t2.name == t.name then { t2 with hasSourceConflict := true } else t2)).find?
          (fun t2 => t2.name == req.testName)).map Test.hasSourceConflict = some true
    rw [hname]
    rw [find?_name_map d.tests req.testName
      (fun t2 => { t2 with hasSourceConflict := true }) (fun _ => rfl)]
    have h3x : List.find? (fun t2 => t2.name == req.testName) d.tests = some t := h3
    rw [h3x]
    rfl
  · intro hnc
    unfold beaconFinish
    rw [if_neg h4]
    have hc : ¬(t.source = "server"
        ∧ (if req.source = "" then "client" else req.source) = "client"
        ∧ t.hasSourceConflict = false) := by
      intro hcon
      exact hnc ⟨hcon.1, hcon.2.1⟩
    simp only [if_neg hc]

/-- C3 witness: a concrete client report against the server-provenance
experiment `sampleTest` flips its conflict flag; a matching provenance
leaves the tests table untouched. -/
theorem beacon_conflict_one_directional_witness :
    (¬(("hero" : String) = "" ∨ ("v1" : String) = "")
      ∧ ¬(("view" : String) ≠ "view" ∧ ("view" : String) ≠ "convert")
      ∧ getTestRow sampleDB "hero" = some sampleTest
      ∧ ¬((0 : Int) < 0 ∨ (sampleTest.variants.length : Int) ≤ 0))
    ∧ ((sampleTest.source = "server" →
          (if ("client" : String) = "" then "client" else "client") = "client" →
          sampleTest.hasSourceConflict = false →
          (getTestRow (handleBeacon sampleDB
              { testName := "hero", variant := 0, eventType := "view", visitorID := "v1",
                source := "client", variants := [] }).2 "hero").map Test.hasSourceConflict
            = some true)
      ∧ (¬(sampleTest.source = "server"
            ∧ (if ("client" : String) = "" then "client" else "client") = "client") →
          (handleBeacon sampleDB
              { testName := "hero", variant := 0, eventType := "view", visitorID := "v1",
                source := "client", variants := [] }).2.tests = sampleDB.tests)) :=
  ⟨⟨by decide, by decide, rfl, by decide⟩,
    beacon_conflict_one_directional sampleDB
      { testName := "hero", variant := 0, eventType := "view", visitorID := "v1",
        source := "client", variants := [] } sampleTest
      (by decide) (by decide) rfl (by decide)⟩

/-- C3 counterexample: a fully validated server-provenance report against a
client-provenance experiment with the conflict flag unset is processed
(204) yet leaves the flag false, contradicting the claim that ingestion
records the conflict in both mismatch directions. -/
theorem beacon_conflict_counterexample :
    (handleBeacon
        { tests := [{ name := "hero", variants := ["A", "B"], conversionGoal := "",
                      state := .running, winnerVariant := none, source := "client",
                      hasSourceConflict := false }], events := [] }
        { testName := "hero", variant := 0, eventType := "view", visitorID := "v1",
          source := "server", variants := [] }).1 = .noContent
    ∧ (getTestRow (handleBeacon
        { tests := [{ name := "hero", variants := ["A", "B"], conversionGoal := "",
                      state := .running, winnerVariant := none, source := "client",
                      hasSourceConflict := false }], events := [] }
        { testName := "hero", variant := 0, eventType := "view", visitorID := "v1",
          source := "server", variants := [] }).2 "hero").map Test.hasSourceConflict
      = some false := by
  constructor
  · decide
  · decide

/-- C4 (amended): the explicit create command preserves the
at-least-two-variants invariant, but the auto-create ingestion path only
guarantees at least one variant — it accepts any non-empty variant-label
list. -/
theorem variant_count_by_creation_path :
    (∀ (d : DBState) (n vf ct cu : String),
        (∀ t ∈ d.tests, 2 ≤ t.variants.length) →
        ∀ t2 ∈ (createCmd d n vf ct cu).2.tests, 2 ≤ t2.variants.length)
    ∧ (∀ (d : DBState) (req : BeaconRequest),
        (∀ t ∈ d.tests, 1 ≤ t.variants.length) →
        ∀ t2 ∈ (handleBeacon d req).2.tests, 1 ≤ t2.variants.length) := by
  constructor
  · intro d n vf ct cu hinv t2 ht2
    unfold createCmd at ht2
    by_cases hlen : ((vf.splitOn ",").map String.trim).length < 2
    · rw [if_pos hlen] at ht2
      exact hinv t2 ht2
    · rw [if_neg hlen] at ht2
      by_cases hex : ct ≠ "" ∧ cu ≠ ""
      · rw [if_pos hex] at ht2
        exact hinv t2 ht2
      · rw [if_neg hex] at ht2
        unfold createTest createTestWithSource at ht2
        by_cases hrow : (getTestRow d n).isSome
        · rw [if_pos hrow] at ht2
          exact hinv t2 ht2
        · rw [if_neg hrow] at ht2
          simp only [List.mem_append, List.mem_singleton] at ht2
          cases ht2 with
          | inl h => exact hinv t2 h
          | inr h =>
            subst h
            exact le_of_not_lt hlen
  · intro d req hinv t2 ht2
    cases handleBeacon_tests_cases d req t2 ht2 with
    | inl h =>
      obtain ⟨t0, ht0, heq⟩ := h
      rw [heq]
      exact hinv t0 ht0
    | inr h =>
      rw [h.1]
      exact h.2

/-- C4 witness: the create command rejects a one-variant flag value and the
invariant survives on a concrete store. -/
theorem variant_count_by_creation_path_witness :
    (∀ t ∈ sampleDB.tests, 2 ≤ t.variants.length)
    ∧ (∀ t2 ∈ (createCmd sampleDB "cta" "Sign Up" "" "").2.tests, 2 ≤ t2.variants.length) :=
  ⟨by decide, variant_count_by_creation_path.1 sampleDB "cta" "Sign Up" "" "" (by decide)⟩

/-- C4 counterexample: a beacon carrying a single variant label against an
empty registry auto-creates and stores an experiment with exactly one
variant (and is answered 204), contradicting the claim that every stored
experiment has at least two variants. -/
theorem beacon_autocreate_stores_single_variant :
    ((getTestRow (handleBeacon { tests := [], events := [] }
        { testName := "hero", variant := 0, eventType := "view", visitorID := "v1",
          source := "", variants := ["only"] }).2 "hero").map
        (fun t => t.variants.length)) = some 1
    ∧ (handleBeacon { tests := [], events := [] }
        { testName := "hero", variant := 0, eventType := "view", visitorID := "v1",
          source := "", variants := ["only"] }).1 = .noContent := by
  constructor
  · decide
  · decide

/-! ### Lemmas about the inference engine -/

/-- normalCDF of two opposite nonzero arguments sums to exactly 1: the
approximation mirrors itself through the sign variable. -/
lemma normalCDF_add_neg (x : ℝ) (hx : x ≠ 0) : normalCDF x + normalCDF (-x) = 1 := by
  unfold normalCDF
  rcases lt_trichotomy x 0 with h | h | h
  · rw [if_pos h, if_neg (by linarith : ¬(-x < 0)), abs_neg]
    ring
  · exact absurd h hx
  · rw [if_neg (by linarith : ¬(x < 0)), if_pos (by linarith : -x < 0), abs_neg]
    ring

/-- normalCDF at 0 is 0.5·(1 + 10⁻⁹), not exactly 0.5: the five
Abramowitz–Stegun coefficients sum to 0.999999999. -/
lemma normalCDF_zero : normalCDF 0 = 0.5000000005 := by
  unfold normalCDF
  rw [if_neg (lt_irrefl 0), abs_zero, zero_div]
  norm_num

/-- significanceTest with both views positive, restated with its branch
structure made explicit. -/
lemma significanceTest_eq (aConv aViews bConv bViews : Int)
    (ha : 0 < aViews) (hb : 0 < bViews) :
    significanceTest aConv aViews bConv bViews
      = (if Real.sqrt (((aConv : ℝ) + (bConv : ℝ)) / ((aViews : ℝ) + (bViews : ℝ))
            * (1 - ((aConv : ℝ) + (bConv : ℝ)) / ((aViews : ℝ) + (bViews : ℝ)))
            * (1 / (aViews : ℝ) + 1 / (bViews : ℝ))) = 0 then
          (if (bConv : ℝ) / (bViews : ℝ) < (aConv : ℝ) / (aViews : ℝ) then 1.0
           else if (aConv : ℝ) / (aViews : ℝ) < (bConv : ℝ) / (bViews : ℝ) then 0.0
           else 0.5)
        else normalCDF (((aConv : ℝ) / (aViews : ℝ) - (bConv : ℝ) / (bViews : ℝ))
          / Real.sqrt (((aConv : ℝ) + (bConv : ℝ)) / ((aViews : ℝ) + (bViews : ℝ))
            * (1 - ((aConv : ℝ) + (bConv : ℝ)) / ((aViews : ℝ) + (bViews : ℝ)))
            * (1 / (aViews : ℝ) + 1 / (bViews : ℝ))))) := by
  have ha0 : aViews ≠ 0 := ne_of_gt ha
  have hb0 : bViews ≠ 0 := ne_of_gt hb
  unfold significanceTest
  rw [if_neg (by simp [ha0]), if_neg (by simp [ha0, hb0])]

/-- C7 (amended): with both views positive, SignificanceTest(a,b) equals
1 − SignificanceTest(b,a) exactly whenever the two conversion rates differ;
in every case the two calls sum to 1 within 10⁻⁹ (when the rates coincide
and the standard error is nonzero, both calls return normalCDF 0 =
0.5 + 5·10⁻¹⁰, so the sum overshoots 1 by exactly 10⁻⁹). -/
theorem significanceTest_symmetry (aConv aViews bConv bViews : Int)
    (ha : 0 < aViews) (hb : 0 < bViews) :
    ((aConv : ℝ) / (aViews : ℝ) ≠ (bConv : ℝ) / (bViews : ℝ) →
      significanceTest aConv aViews bConv bViews
        = 1 - significanceTest bConv bViews aConv aViews)
    ∧ |significanceTest aConv aViews bConv bViews
        + significanceTest bConv bViews aConv aViews - 1| ≤ 0.000000001 := by
  have hA := significanceTest_eq aConv aViews bConv bViews ha hb
  have hB := significanceTest_eq bConv bViews aConv aViews hb ha
  have hSarg : ((bConv : ℝ) + (aConv : ℝ)) / ((bViews : ℝ) + (aViews : ℝ))
      * (1 - ((bConv : ℝ) + (aConv : ℝ)) / ((bViews : ℝ) + (aViews : ℝ)))
      * (1 / (bViews : ℝ) + 1 / (aViews : ℝ))
      = ((aConv : ℝ) + (bConv : ℝ)) / ((aViews : ℝ) + (bViews : ℝ))
      * (1 - ((aConv : ℝ) + (bConv : ℝ)) / ((aViews : ℝ) + (bViews : ℝ)))
      * (1 / (aViews : ℝ) + 1 / (bViews : ℝ)) := by
    rw [add_comm (bConv : ℝ), add_comm (bViews : ℝ)]
    ring
  rw [hSarg] at hB
  set pa := (aConv : ℝ) / (aViews : ℝ)
  set pb := (bConv : ℝ) / (bViews : ℝ)
  set S := ((aConv : ℝ) + (bConv : ℝ)) / ((aViews : ℝ) + (bViews : ℝ))
      * (1 - ((aConv : ℝ) + (bConv : ℝ)) / ((aViews : ℝ) + (bViews : ℝ)))
      * (1 / (aViews : ℝ) + 1 / (bViews : ℝ)) with hSdef
  by_cases hsq : Real.sqrt S = 0
  · rw [hA, hB, if_pos hsq, if_pos hsq]
    rcases lt_trichotomy pa pb with h | h | h
    · rw [if_neg (lt_asymm h), if_pos h, if_pos h]
      exact ⟨fun _ => by norm_num, by norm_num⟩
    · have hn1 : ¬pb < pa := by rw [h]; exact lt_irrefl pb
      have hn2 : ¬pa < pb := by rw [h]; exact lt_irrefl pb
      rw [if_neg hn1, if_neg hn2, if_neg hn2, if_neg hn1]
      refine ⟨fun hne => absurd h hne, by norm_num⟩
    · rw [if_pos h, if_neg (lt_asymm h), if_pos h]
      exact ⟨fun _ => by norm_num, by norm_num⟩
  · rw [hA, hB, if_neg hsq, if_neg hsq]
    by_cases hpp : pa = pb
    · rw [hpp, sub_self, zero_div, normalCDF_zero]
      refine ⟨fun hne => absurd rfl hne, ?_⟩
      rw [abs_of_nonneg (by norm_num : (0 : ℝ) ≤ 0.5000000005 + 0.5000000005 - 1)]
      norm_num
    · have hz : (pa - pb) / Real.sqrt S ≠ 0 :=
        div_ne_zero (sub_ne_zero.2 hpp) hsq
      have hneg : (pb - pa) / Real.sqrt S = -((pa - pb) / Real.sqrt S) := by
        rw [← neg_div, neg_sub]
      rw [hneg]
      have hsum := normalCDF_add_neg ((pa - pb) / Real.sqrt S) hz
      constructor
      · intro _
        linarith
      · rw [show normalCDF ((pa - pb) / Real.sqrt S)
            + normalCDF (-((pa - pb) / Real.sqrt S)) - 1 = 0 from by linarith]
        norm_num

/-- C7 witness: a concrete pair of counts with different rates — (1 of 2)
against (0 of 2) — satisfies the exact-complement equation and the 10⁻⁹
bound. -/
theorem significanceTest_symmetry_witness :
    ((0 : Int) < 2 ∧ (0 : Int) < 2)
    ∧ ((((1 : Int) : ℝ) / ((2 : Int) : ℝ) ≠ (((0 : Int) : ℝ)) / ((2 : Int) : ℝ) →
        significanceTest 1 2 0 2 = 1 - significanceTest 0 2 1 2)
      ∧ |significanceTest 1 2 0 2 + significanceTest 0 2 1 2 - 1| ≤ 0.000000001) :=
  ⟨⟨by norm_num, by norm_num⟩,
    significanceTest_symmetry 1 2 0 2 (by norm_num) (by norm_num)⟩

/-- C7 counterexample: at equal rates (1 of 2 against 1 of 2) the claimed
identity SignificanceTest(a,b) = 1 − SignificanceTest(b,a) fails in exact
real arithmetic — both sides are 0.5·(1 + 10⁻⁹), which is not its own
complement. -/
theorem significanceTest_symmetry_counterexample :
    significanceTest 1 2 1 2 ≠ 1 - significanceTest 1 2 1 2 := by
  have h12 : significanceTest 1 2 1 2 = normalCDF 0 := by
    rw [significanceTest_eq 1 2 1 2 (by norm_num) (by norm_num)]
    have harg : (((1 : Int) : ℝ) + ((1 : Int) : ℝ)) / (((2 : Int) : ℝ) + ((2 : Int) : ℝ))
        * (1 - (((1 : Int) : ℝ) + ((1 : Int) : ℝ)) / (((2 : Int) : ℝ) + ((2 : Int) : ℝ)))
        * (1 / ((2 : Int) : ℝ) + 1 / ((2 : Int) : ℝ)) = (1 / 2 : ℝ) ^ 2 := by
      push_cast
      norm_num
    rw [harg, Real.sqrt_sq (by norm_num : (0 : ℝ) ≤ 1 / 2)]
    rw [if_neg (by norm_num : ¬(1 / 2 : ℝ) = 0), sub_self, zero_div]
  rw [h12, normalCDF_zero]
  norm_num

/-- C2 (amended): zScore returns the five table values exactly at the five
listed confidence levels, but its switch cases use `>=` comparisons, so
every level in [0.80, 1) is served by the table value of the largest listed
threshold below or at it, and only levels below 0.80 reach the rational
approximation. -/
theorem zScore_buckets :
    (zScore 0.80 = 1.28 ∧ zScore 0.85 = 1.44 ∧ zScore 0.90 = 1.645
      ∧ zScore 0.95 = 1.96 ∧ zScore 0.99 = 2.576)
    ∧ (∀ c : ℝ, c < 0.80 → zScore c = approximateZScore c)
    ∧ (∀ c : ℝ, 0.80 ≤ c → c < 0.85 → zScore c = 1.28)
    ∧ (∀ c : ℝ, 0.85 ≤ c → c < 0.90 → zScore c = 1.44)
    ∧ (∀ c : ℝ, 0.90 ≤ c → c < 0.95 → zScore c = 1.645)
    ∧ (∀ c : ℝ, 0.95 ≤ c → c < 0.99 → zScore c = 1.96)
    ∧ (∀ c : ℝ, 0.99 ≤ c → zScore c = 2.576) := by
  refine ⟨⟨?_, ?_, ?_, ?_, ?_⟩, ?_, ?_, ?_, ?_, ?_, ?_⟩
  · unfold zScore
    norm_num
  · unfold zScore
    norm_num
  · unfold zScore
    norm_num
  · unfold zScore
    norm_num
  · unfold zScore
    norm_num
  · intro c hc
    unfold zScore
    rw [if_neg (by linarith), if_neg (by linarith), if_neg (by linarith),
      if_neg (by linarith), if_neg (by linarith)]
  · intro c hc1 hc2
    unfold zScore
    rw [if_neg (by linarith), if_neg (by linarith), if_neg (by linarith),
      if_neg (by linarith), if_pos (by linarith)]
  · intro c hc1 hc2
    unfold zScore
    rw [if_neg (by linarith), if_neg (by linarith), if_neg (by linarith),
      if_pos (by linarith)]
  · intro c hc1 hc2
    unfold zScore
    rw [if_neg (by linarith), if_neg (by linarith), if_pos (by linarith)]
  · intro c hc1 hc2
    unfold zScore
    rw [if_neg (by linarith), if_pos (by linarith)]
  · intro c hc
    unfold zScore
    rw [if_pos (by linarith)]

/-- C2 witness: the bucket behaviour at the claim's own example level 0.97 —
the code returns the 0.95 table value 1.96 there. -/
theorem zScore_buckets_witness :
    ((0.95 : ℝ) ≤ 0.97 ∧ (0.97 : ℝ) < 0.99) ∧ zScore 0.97 = 1.96 :=
  ⟨⟨by norm_num, by norm_num⟩,
    zScore_buckets.2.2.2.2.2.1 0.97 (by norm_num) (by norm_num)⟩

/-- C2 counterexample: 0.92 is not one of the five listed levels, yet
ZScore(0.92) returns the 0.90 table value 1.645 rather than the rational
approximation (which gives ≈ 1.7507 there) — refuting the claim that every
unlisted level in (0,1) is served by the approximation. -/
theorem zScore_not_approx_at_092 :
    zScore 0.92 = 1.645 ∧ approximateZScore 0.92 ≠ 1.645 := by
  constructor
  · unfold zScore
    norm_num
  · unfold approximateZScore
    norm_num

/-- acklamNum_nonneg: the numerator polynomial of the Acklam central branch
is nonnegative on the whole range [0, 0.16] that branch can see (a Bernstein
certificate: all its Bernstein coefficients on [0, 0.16] are positive). -/
lemma acklamNum_nonneg (r : ℝ) (h0 : 0 ≤ r) (h1 : r ≤ 0.16) :
    0 ≤ ((((-39.69683028665376 * r + 220.9460984245205) * r + -275.9285104469687) * r +
        138.3577518672690) * r + -30.66479806614716) * r + 2.506628277459239 := by
  have hs : (0 : ℝ) ≤ 0.16 - r := by linarith
  have t0 : (0 : ℝ) ≤ (0.16 - r) ^ 5 := pow_nonneg hs 5
  have t1 : (0 : ℝ) ≤ r * (0.16 - r) ^ 4 := mul_nonneg h0 (pow_nonneg hs 4)
  have t2 : (0 : ℝ) ≤ r ^ 2 * (0.16 - r) ^ 3 := mul_nonneg (pow_nonneg h0 2) (pow_nonneg hs 3)
  have t3 : (0 : ℝ) ≤ r ^ 3 * (0.16 - r) ^ 2 := mul_nonneg (pow_nonneg h0 3) (pow_nonneg hs 2)
  have t4 : (0 : ℝ) ≤ r ^ 4 * (0.16 - r) := mul_nonneg (pow_nonneg h0 4) hs
  have t5 : (0 : ℝ) ≤ r ^ 5 := pow_nonneg h0 5
  nlinarith [t0, t1, t2, t3, t4, t5]

/-- acklamDen_nonneg: the denominator polynomial of the Acklam central
branch is nonnegative on [0, 0.16] (same Bernstein certificate argument). -/
lemma acklamDen_nonneg (r : ℝ) (h0 : 0 ≤ r) (h1 : r ≤ 0.16) :
    0 ≤ ((((-54.47609879822406 * r + 161.5858368580409) * r + -155.6989798598866) * r +
        66.80131188771972) * r + -13.28068155288572) * r + 1 := by
  have hs : (0 : ℝ) ≤ 0.16 - r := by linarith
  have t0 : (0 : ℝ) ≤ (0.16 - r) ^ 5 := pow_nonneg hs 5
  have t1 : (0 : ℝ) ≤ r * (0.16 - r) ^ 4 := mul_nonneg h0 (pow_nonneg hs 4)
  have t2 : (0 : ℝ) ≤ r ^ 2 * (0.16 - r) ^ 3 := mul_nonneg (pow_nonneg h0 2) (pow_nonneg hs 3)
  have t3 : (0 : ℝ) ≤ r ^ 3 * (0.16 - r) ^ 2 := mul_nonneg (pow_nonneg h0 3) (pow_nonneg hs 2)
  have t4 : (0 : ℝ) ≤ r ^ 4 * (0.16 - r) := mul_nonneg (pow_nonneg h0 4) hs
  have t5 : (0 : ℝ) ≤ r ^ 5 := pow_nonneg h0 5
  nlinarith [t0, t1, t2, t3, t4, t5]

/-- zScore is nonnegative on every genuine confidence level in (0, 1): the
five table values are positive, and for levels below 0.80 the Acklam
approximation lands in its central branch with a nonnegative value. -/
lemma zScore_nonneg (c : ℝ) (hc0 : 0 < c) (hc1 : c < 1) : 0 ≤ zScore c := by
  unfold zScore
  by_cases h99 : (0.99 : ℝ) ≤ c
  · rw [if_pos h99]; norm_num
  · rw [if_neg h99]
    by_cases h95 : (0.95 : ℝ) ≤ c
    · rw [if_pos h95]; norm_num
    · rw [if_neg h95]
      by_cases h90 : (0.90 : ℝ) ≤ c
      · rw [if_pos h90]; norm_num
      · rw [if_neg h90]
        by_cases h85 : (0.85 : ℝ) ≤ c
        · rw [if_pos h85]; norm_num
        · rw [if_neg h85]
          by_cases h80 : (0.80 : ℝ) ≤ c
          · rw [if_pos h80]; norm_num
          · rw [if_neg h80]
            have hc8 : c < 0.80 := lt_of_not_le h80
            have hp1 : ¬((1 + c) / 2 < 0.02425) := by norm_num; linarith
            have hp2 : (1 + c) / 2 ≤ 1 - 0.02425 := by norm_num; linarith
            unfold approximateZScore
            rw [if_neg hp1, if_pos hp2]
            have hq0 : (0 : ℝ) ≤ (1 + c) / 2 - 0.5 := by linarith
            have hr0 : (0 : ℝ) ≤ ((1 + c) / 2 - 0.5) * ((1 + c) / 2 - 0.5) :=
              mul_nonneg hq0 hq0
            have hr1 : ((1 + c) / 2 - 0.5) * ((1 + c) / 2 - 0.5) ≤ 0.16 := by nlinarith
            apply div_nonneg
            · exact mul_nonneg (acklamNum_nonneg _ hr0 hr1) hq0
            · exact acklamDen_nonneg _ hr0 hr1

/-- clamp_bounds: the one-sided clamps of the Wilson bounds preserve the
bracketing of the rate once the pre-clamp bounds bracket it. -/
lemma clamp_bounds (p c s : ℝ) (hp0 : 0 ≤ p) (hp1 : p ≤ 1)
    (hlow : c - s ≤ p) (hup : p ≤ c + s) :
    (0 ≤ (if c - s < 0 then 0 else c - s))
    ∧ ((if c - s < 0 then 0 else c - s) ≤ p)
    ∧ (p ≤ (if 1 < c + s then 1 else c + s))
    ∧ ((if 1 < c + s then 1 else c + s) ≤ 1) := by
  refine ⟨?_, ?_, ?_, ?_⟩ <;> split_ifs <;> linarith

/-- wilson_center_spread: for a rate p ∈ [0, 1], positive sample size and a
nonnegative quantile, the Wilson center bracket the rate within one spread:
center − spread ≤ p ≤ center + spread. -/
lemma wilson_center_spread (p n z : ℝ) (hn : 0 < n) (hp0 : 0 ≤ p) (hp1 : p ≤ 1)
    (hz : 0 ≤ z) :
    (p + z * z / (2 * n)) / (1 + z * z / n)
      - (z / (1 + z * z / n)) * Real.sqrt (p * (1 - p) / n + z * z / (4 * n * n)) ≤ p
    ∧ p ≤ (p + z * z / (2 * n)) / (1 + z * z / n)
      + (z / (1 + z * z / n)) * Real.sqrt (p * (1 - p) / n + z * z / (4 * n * n)) := by
  have hD : (0 : ℝ) < 1 + z * z / n := by
    have : (0 : ℝ) ≤ z * z / n := div_nonneg (mul_self_nonneg z) hn.le
    linarith
  have hA : (0 : ℝ) ≤ p * (1 - p) / n + z * z / (4 * n * n) := by
    have ha1 : (0 : ℝ) ≤ p * (1 - p) / n :=
      div_nonneg (mul_nonneg hp0 (by linarith)) hn.le
    have ha2 : (0 : ℝ) ≤ z * z / (4 * n * n) :=
      div_nonneg (mul_self_nonneg z) (by positivity)
    linarith
  have hS0 : 0 ≤ Real.sqrt (p * (1 - p) / n + z * z / (4 * n * n)) :=
    Real.sqrt_nonneg _
  have hS2 : Real.sqrt (p * (1 - p) / n + z * z / (4 * n * n)) ^ 2
      = p * (1 - p) / n + z * z / (4 * n * n) := Real.sq_sqrt hA
  set S := Real.sqrt (p * (1 - p) / n + z * z / (4 * n * n)) with hSdef
  have hident : (z * S) ^ 2 - (z * z / n * (1 / 2 - p)) ^ 2
      = z * z * (p * (1 - p)) * (1 + z * z / n) / n := by
    rw [mul_pow, hS2]
    field_simp
    ring
  have hdiffnn : (z * z / n * (1 / 2 - p)) ^ 2 ≤ (z * S) ^ 2 := by
    have hnn : (0 : ℝ) ≤ z * z * (p * (1 - p)) * (1 + z * z / n) / n :=
      div_nonneg
        (mul_nonneg (mul_nonneg (mul_self_nonneg z) (mul_nonneg hp0 (by linarith))) hD.le)
        hn.le
    linarith
  have hzS : 0 ≤ z * S := mul_nonneg hz hS0
  have h1 : z * z / n * (1 / 2 - p) ≤ z * S := by nlinarith [hdiffnn, hzS]
  have h2 : -(z * S) ≤ z * z / n * (1 / 2 - p) := by nlinarith [hdiffnn, hzS]
  have hcp : (p + z * z / (2 * n)) / (1 + z * z / n) - p
      = (z * z / n * (1 / 2 - p)) / (1 + z * z / n) := by
    field_simp
    ring
  have hsp : (z / (1 + z * z / n)) * S = (z * S) / (1 + z * z / n) := by ring
  have hdiv1 : (z * z / n * (1 / 2 - p)) / (1 + z * z / n)
      ≤ (z * S) / (1 + z * z / n) := by
    exact div_le_div_of_nonneg_right h1 hD.le
  have hdiv2 : (-(z * S)) / (1 + z * z / n)
      ≤ (z * z / n * (1 / 2 - p)) / (1 + z * z / n) := by
    exact div_le_div_of_nonneg_right h2 hD.le
  have hneg : (-(z * S)) / (1 + z * z / n) = -((z * S) / (1 + z * z / n)) := by ring
  constructor
  · linarith [hcp, hsp, hdiv1]
  · linarith [hcp, hsp, hdiv2, hneg]

/-- C6: WilsonInterval returns (0, 0) at zero trials; with positive trials
and 0 ≤ successes ≤ trials (and a genuine confidence level in (0, 1)) the
returned bounds satisfy 0 ≤ lower ≤ successes/trials ≤ upper ≤ 1. -/
theorem wilsonInterval_bounds (successes trials : Int) (confidence : ℝ)
    (h0 : 0 ≤ successes) (h1 : successes ≤ trials)
    (hc0 : 0 < confidence) (hc1 : confidence < 1) :
    (trials = 0 → wilsonInterval successes trials confidence = (0, 0))
    ∧ (0 < trials →
        0 ≤ (wilsonInterval successes trials confidence).1
        ∧ (wilsonInterval successes trials confidence).1 ≤ (successes : ℝ) / (trials : ℝ)
        ∧ (successes : ℝ) / (trials : ℝ) ≤ (wilsonInterval successes trials confidence).2
        ∧ (wilsonInterval successes trials confidence).2 ≤ 1) := by
  constructor
  · intro ht
    unfold wilsonInterval
    rw [if_pos ht]
  · intro ht
    have htne : trials ≠ 0 := ne_of_gt ht
    have hnR : (0 : ℝ) < (trials : ℝ) := by exact_mod_cast ht
    have hp0 : (0 : ℝ) ≤ (successes : ℝ) / (trials : ℝ) :=
      div_nonneg (by exact_mod_cast h0) hnR.le
    have hp1 : (successes : ℝ) / (trials : ℝ) ≤ 1 := by
      rw [div_le_one hnR]
      exact_mod_cast h1
    have hz := zScore_nonneg confidence hc0 hc1
    have hcs := wilson_center_spread ((successes : ℝ) / (trials : ℝ)) ((trials : ℝ))
      (zScore confidence) hnR hp0 hp1 hz
    have hcb := clamp_bounds ((successes : ℝ) / (trials : ℝ)) _ _ hp0 hp1 hcs.1 hcs.2
    unfold wilsonInterval
    rw [if_neg htne]
    exact ⟨hcb.1, hcb.2.1, hcb.2.2.1, hcb.2.2.2⟩

/-- C6 witness: concrete bounds for 1 success out of 2 trials at 95%
confidence. -/
theorem wilsonInterval_bounds_witness :
    ((0 : Int) ≤ 1 ∧ (1 : Int) ≤ 2 ∧ (0 : ℝ) < 0.95 ∧ (0.95 : ℝ) < 1)
    ∧ (((2 : Int) = 0 → wilsonInterval 1 2 0.95 = (0, 0))
      ∧ (0 < (2 : Int) →
          0 ≤ (wilsonInterval 1 2 0.95).1
          ∧ (wilsonInterval 1 2 0.95).1 ≤ ((1 : Int) : ℝ) / ((2 : Int) : ℝ)
          ∧ ((1 : Int) : ℝ) / ((2 : Int) : ℝ) ≤ (wilsonInterval 1 2 0.95).2
          ∧ (wilsonInterval 1 2 0.95).2 ≤ 1)) :=
  ⟨⟨by norm_num, by norm_num, by norm_num, by norm_num⟩,
    wilsonInterval_bounds 1 2 0.95 (by norm_num) (by norm_num) (by norm_num) (by norm_num)⟩

/-- getD_mem: an in-range getD access returns a member of the list. -/
lemma getD_mem (l : List ℝ) (k : ℕ) (hk : k < l.length) : l.getD k 0 ∈ l := by
  rw [List.getD_eq_getElem l 0 hk]
  exact List.getElem_mem hk

/-- getD_map_range: evaluating a range-map at an in-range index. -/
lemma getD_map_range (n : ℕ) (f : ℕ → ℝ) (k : ℕ) (hk : k < n) :
    ((List.range n).map f).getD k 0 = f k := by
  have hk2 : k < ((List.range n).map f).length := by
    rw [List.length_map, List.length_range]
    exact hk
  rw [List.getD_eq_getElem _ 0 hk2]
  simp

/-- leadLoop_spec: the strict-improvement scan either keeps its incoming
best index (when nothing beats the incoming running maximum) or lands on
the first position of the list's maximum, offset by the incoming index. -/
lemma leadLoop_spec (rs : List ℝ) : ∀ (maxR : ℝ) (lead i : ℕ),
    (leadLoop rs maxR lead i = lead ∧ ∀ x ∈ rs, x ≤ maxR)
    ∨ (∃ j, j < rs.length ∧ leadLoop rs maxR lead i = i + j ∧ maxR < rs.getD j 0
        ∧ (∀ k, k < rs.length → rs.getD k 0 ≤ rs.getD j 0)
        ∧ (∀ k, k < j → rs.getD k 0 < rs.getD j 0)) := by
  induction rs with
  | nil =>
    intro maxR lead i
    exact .inl ⟨rfl, by simp⟩
  | cons r rest ih =>
    intro maxR lead i
    by_cases h : maxR < r
    · have hunf : leadLoop (r :: rest) maxR lead i
          = if maxR < r then leadLoop rest r i (i + 1)
            else leadLoop rest maxR lead (i + 1) := rfl
      have hstep : leadLoop (r :: rest) maxR lead i = leadLoop rest r i (i + 1) := by
        rw [hunf, if_pos h]
      rcases ih r i (i + 1) with ⟨heq, hall⟩ | ⟨j, hj, heq, hgt, hmax, hfirst⟩
      · refine .inr ⟨0, by simp, ?_, h, ?_, ?_⟩
        · rw [hstep, heq]
          omega
        · intro k hk
          match k with
          | 0 => exact le_refl _
          | k' + 1 =>
            have hk' : k' < rest.length := by simpa using hk
            exact hall _ (getD_mem rest k' hk')
        · intro k hk
          exact absurd hk (Nat.not_lt_zero k)
      · refine .inr ⟨j + 1, by simpa using Nat.succ_lt_succ hj, ?_, ?_, ?_, ?_⟩
        · rw [hstep, heq]
          omega
        · exact lt_trans h hgt
        · intro k hk
          match k with
          | 0 => exact le_of_lt hgt
          | k' + 1 =>
            have hk' : k' < rest.length := by simpa using hk
            exact hmax k' hk'
        · intro k hk
          match k with
          | 0 => exact hgt
          | k' + 1 => exact hfirst k' (by omega)
    · have hunf : leadLoop (r :: rest) maxR lead i
          = if maxR < r then leadLoop rest r i (i + 1)
            else leadLoop rest maxR lead (i + 1) := rfl
      have hstep : leadLoop (r :: rest) maxR lead i = leadLoop rest maxR lead (i + 1) := by
        rw [hunf, if_neg h]
      rcases ih maxR lead (i + 1) with ⟨heq, hall⟩ | ⟨j, hj, heq, hgt, hmax, hfirst⟩
      · refine .inl ⟨by rw [hstep, heq], ?_⟩
        intro x hx
        rcases List.mem_cons.1 hx with hx | hx
        · rw [hx]
          exact le_of_not_lt h
        · exact hall x hx
      · refine .inr ⟨j + 1, by simpa using Nat.succ_lt_succ hj, ?_, hgt, ?_, ?_⟩
        · rw [hstep, heq]
          omega
        · intro k hk
          match k with
          | 0 => exact le_trans (le_of_not_lt h) (le_of_lt hgt)
          | k' + 1 =>
            have hk' : k' < rest.length := by simpa using hk
            exact hmax k' hk'
        · intro k hk
          match k with
          | 0 => exact lt_of_le_of_lt (le_of_not_lt h) hgt
          | k' + 1 => exact hfirst k' (by omega)

/-- variantRate is nonnegative whenever the stats carry nonnegative
conversion counts (as every aggregation result does). -/
lemma variantRate_nonneg (stats : List VariantStats)
    (hconv : ∀ s ∈ stats, 0 ≤ s.conversions) (i : Int) :
    0 ≤ variantRate stats i := by
  unfold variantRate statsFor
  cases hf : stats.reverse.find? (fun s => s.variant == i) with
  | none =>
    norm_num
  | some s =>
    have hs : s ∈ stats := List.mem_reverse.1 (List.mem_of_find?_eq_some hf)
    have hc : (0 : ℝ) ≤ (s.conversions : ℝ) := by exact_mod_cast hconv s hs
    show (0 : ℝ) ≤ if 0 < s.views then (s.conversions : ℝ) / (s.views : ℝ) else 0
    by_cases hv : 0 < s.views
    · rw [if_pos hv]
      have : (0 : ℝ) ≤ (s.views : ℝ) := by exact_mod_cast le_of_lt hv
      exact div_nonneg hc this
    · rw [if_neg hv]

/-- analyze's leading-variant field is the strict-improvement scan over the
per-variant rates. -/
lemma analyze_leading_eq (test : Test) (stats : List VariantStats) :
    (analyze test stats).leadingVariant
      = leadLoop ((List.range test.variants.length).map
          (fun i : ℕ => variantRate stats (i : Int))) 0 0 0 := by
  unfold analyze
  simp only [List.map_map]
  rfl

/-- C9: Analyze reports LeadingVariant equal to the smallest index whose
rate is maximal over all variants (rates of unrecorded variants count as 0;
ties resolve to the first occurrence), for any experiment with at least one
variant and any aggregation-shaped stats (nonnegative conversion counts). -/
theorem analyze_leading_variant (test : Test) (stats : List VariantStats)
    (hne : test.variants ≠ [])
    (hconv : ∀ s ∈ stats, 0 ≤ s.conversions) :
    (analyze test stats).leadingVariant < test.variants.length
    ∧ (∀ j, j < test.variants.length →
        variantRate stats (j : Int)
          ≤ variantRate stats (((analyze test stats).leadingVariant : ℕ) : Int))
    ∧ (∀ j, j < (analyze test stats).leadingVariant →
        variantRate stats (j : Int)
          < variantRate stats (((analyze test stats).leadingVariant : ℕ) : Int)) := by
  have hn : 0 < test.variants.length := List.length_pos.2 hne
  rw [analyze_leading_eq]
  have hlen : ((List.range test.variants.length).map
      (fun i : ℕ => variantRate stats (i : Int))).length = test.variants.length := by
    rw [List.length_map, List.length_range]
  rcases leadLoop_spec ((List.range test.variants.length).map
      (fun i : ℕ => variantRate stats (i : Int))) 0 0 0 with ⟨heq, hall⟩ |
      ⟨j, hj, heq, hgt, hmax, hfirst⟩
  · rw [heq]
    refine ⟨hn, ?_, ?_⟩
    · intro k hk
      have hk0 : variantRate stats (k : Int) ≤ 0 := by
        have hmem : variantRate stats (k : Int) ∈ (List.range test.variants.length).map
            (fun i : ℕ => variantRate stats (i : Int)) :=
          List.mem_map.2 ⟨k, List.mem_range.2 hk, rfl⟩
        exact hall _ hmem
      exact le_trans hk0 (variantRate_nonneg stats hconv _)
    · intro k hk
      exact absurd hk (Nat.not_lt_zero k)
  · rw [hlen] at hj hmax
    rw [heq]
    simp only [Nat.zero_add]
    refine ⟨hj, ?_, ?_⟩
    · intro k hk
      have := hmax k hk
      rw [getD_map_range _ _ k hk, getD_map_range _ _ j hj] at this
      exact this
    · intro k hk
      have := hfirst k hk
      rw [getD_map_range _ _ k (lt_trans hk hj), getD_map_range _ _ j hj] at this
      exact this

/-- C9 witness: with stats (views 100, conv 10) on variant 0 and
(views 100, conv 20) on variant 1 of the concrete two-variant experiment,
the leading-variant characterisation holds. -/
theorem analyze_leading_variant_witness :
    (sampleTest.variants ≠ []
      ∧ ∀ s ∈ [({ variant := 0, views := 100, conversions := 10 } : VariantStats),
               { variant := 1, views := 100, conversions := 20 }], 0 ≤ s.conversions)
    ∧ ((analyze sampleTest
          [{ variant := 0, views := 100, conversions := 10 },
           { variant := 1, views := 100, conversions := 20 }]).leadingVariant
        < sampleTest.variants.length
      ∧ (∀ j, j < sampleTest.variants.length →
          variantRate [{ variant := 0, views := 100, conversions := 10 },
                       { variant := 1, views := 100, conversions := 20 }] (j : Int)
            ≤ variantRate [{ variant := 0, views := 100, conversions := 10 },
                           { variant := 1, views := 100, conversions := 20 }]
              (((analyze sampleTest
                  [{ variant := 0, views := 100, conversions := 10 },
                   { variant := 1, views := 100, conversions := 20 }]).leadingVariant : ℕ) : Int))
      ∧ (∀ j, j < (analyze sampleTest
            [{ variant := 0, views := 100, conversions := 10 },
             { variant := 1, views := 100, conversions := 20 }]).leadingVariant →
          variantRate [{ variant := 0, views := 100, conversions := 10 },
                       { variant := 1, views := 100, conversions := 20 }] (j : Int)
            < variantRate [{ variant := 0, views := 100, conversions := 10 },
                           { variant := 1, views := 100, conversions := 20 }]
              (((analyze sampleTest
                  [{ variant := 0, views := 100, conversions := 10 },
                   { variant := 1, views := 100, conversions := 20 }]).leadingVariant : ℕ) : Int))) :=
  ⟨⟨by decide, by decide⟩,
    analyze_leading_variant sampleTest
      [{ variant := 0, views := 100, conversions := 10 },
       { variant := 1, views := 100, conversions := 20 }] (by decide) (by decide)⟩

end HeadlineGoat
